import Mathlib

/-!
Verification of the event-socket ingestion core
(`src/event-stream/socket-server.ts`).

The development shallowly embeds the TypeScript source:

* the data model (`DbBlock`, `DbSmartContract`, the `Db*Event` records) and
  the raw message shape produced by the external parser;
* the event classifier (the `switch` over `event.type` in
  `handleClientMessage`, lines 63-171), as a pure function returning
  `Except` (the `default` branch throws);
* the message applier (`handleClientMessage`, lines 37-172) as a list of
  sequential store-call steps executed against a store that may fail any
  individual write;
* the serial dispatch queue (`createMessageProcessorQueue`, lines 176-183,
  a p-queue with concurrency 1) as a one-at-a-time task scheduler given by
  a small-step relation;
* the connection-handling boundary (`handleClientMessage` lines 22-36 and
  `startEventSocketServer` lines 185-198).

External collaborators (`readMessageFromStream`, `parseMessageTransactions`,
`createDbTxFromCoreMsg`, `hexToBuffer`, the `p-queue` package and the
`DataStore`) live outside the provided source; where a claim depends on
their behavior they are modelled from the specification, and each such
definition says so in its doc comment.
-/

/-! ## Raw parsed-message data model

`parseMessageTransactions` (external, `./reader.ts`) returns the core-node
message with a `parsed_transactions` array parallel to `transactions`;
`handleClientMessage` iterates the indices of `transactions` while reading
`parsed_transactions[i]`, so the two arrays are kept paired here as a single
list of parsed transactions. -/

/-- Transaction payload as consumed by `handleClientMessage`: only the
`SmartContract` payload type (carrying `name` and `codeBody`) is
distinguished, via `tx.raw_tx.payload.typeId === TransactionPayloadTypeID.SmartContract`. -/
inductive TxPayload where
  | smartContract (name : String) (codeBody : String)
  | otherPayload
deriving DecidableEq

/-- The fields of one parsed transaction that `handleClientMessage` reads:
`tx.sender_address`, `tx.core_tx.txid`, the JSON-serialized
`tx.core_tx.contract_abi` (serialization by the JS runtime, kept abstract
as the resulting string), and `tx.raw_tx.payload`. -/
structure ParsedTx where
  sender_address : String
  txid : String
  contract_abi_json : String
  payload : TxPayload
deriving DecidableEq

/-- One raw event of the core-node message, a discriminated union on the
`type` tag (`CoreNodeEventType`); `unknownEvent` stands for any tag outside
the eight recognized ones (the `default` branch of the `switch`). Amount
fields arrive as decimal strings (the source applies `BigInt` to them) and
value fields as hex strings (the source applies `hexToBuffer`). -/
inductive RawEvent where
  | contractEvent (txid contract_identifier topic raw_value : String)
  | stxTransferEvent (txid sender recipient amount : String)
  | stxMintEvent (txid recipient amount : String)
  | stxBurnEvent (txid sender amount : String)
  | ftTransferEvent (txid sender recipient asset_identifier amount : String)
  | ftMintEvent (txid recipient asset_identifier amount : String)
  | nftTransferEvent (txid sender recipient asset_identifier raw_value : String)
  | nftMintEvent (txid recipient asset_identifier raw_value : String)
  | unknownEvent (txid tag : String)
deriving DecidableEq

/-- The `txid` field common to every raw event shape. -/
def RawEvent.txid : RawEvent → String
  | .contractEvent t _ _ _ => t
  | .stxTransferEvent t _ _ _ => t
  | .stxMintEvent t _ _ => t
  | .stxBurnEvent t _ _ => t
  | .ftTransferEvent t _ _ _ _ => t
  | .ftMintEvent t _ _ _ => t
  | .nftTransferEvent t _ _ _ _ => t
  | .nftMintEvent t _ _ _ => t
  | .unknownEvent t _ => t

/-- Whether a raw event's tag is inside the closed set of eight recognized
`CoreNodeEventType` tags. -/
def RawEvent.recognized : RawEvent → Bool
  | .unknownEvent _ _ => false
  | _ => true

/-- The message as `handleClientMessage` sees it after
`parseMessageTransactions`: block metadata plus the ordered transactions
and ordered events. -/
structure ParsedMessage where
  block_hash : String
  index_block_hash : String
  parent_block_hash : String
  parent_microblock : String
  block_height : Nat
  burn_block_time : Nat
  parsed_transactions : List ParsedTx
  events : List RawEvent
deriving DecidableEq

/-! ## Store record types (`src/datastore/common.ts` shapes as used here) -/

/-- `DbBlock` as constructed at lines 38-46 of the source. -/
structure DbBlock where
  canonical : Bool
  block_hash : String
  index_block_hash : String
  parent_block_hash : String
  parent_microblock : String
  block_height : Nat
  burn_block_time : Nat
deriving DecidableEq

/-- Modelled from the spec: `createDbTxFromCoreMsg` and the `DbTx` shape
live in `src/datastore/common.ts`, which is not part of the provided
source. The spec (§3) only requires one TransactionRecord per parsed
transaction, derived from it; the record is kept as the transaction it was
derived from. -/
structure DbTx where
  derived_from : ParsedTx
deriving DecidableEq

/-- Modelled from the spec: the external derivation of a TransactionRecord
from one parsed transaction (§3, "one per transaction in RawMessage"). -/
def createDbTxFromCoreMsg (tx : ParsedTx) : DbTx :=
  { derived_from := tx }

/-- `DbSmartContract` as constructed at lines 53-60 of the source. -/
structure DbSmartContract where
  tx_id : String
  contract_id : String
  block_height : Nat
  source_code : String
  abi : String
  canonical : Bool
deriving DecidableEq

/-- `DbEventTypeId` discriminants used by the classifier. -/
inductive DbEventTypeId where
  | smartContractLog
  | stxAsset
  | fungibleTokenAsset
  | nonFungibleTokenAsset
deriving DecidableEq

/-- `DbAssetEventTypeId` discriminants used by the classifier. -/
inductive DbAssetEventTypeId where
  | transfer
  | mint
  | burn
deriving DecidableEq

/-- `DbEventBase` (lines 65-70): fields shared by every event record. -/
structure DbEventBase where
  event_index : Nat
  tx_id : String
  block_height : Nat
  canonical : Bool
deriving DecidableEq

/-- `DbSmartContractEvent`: the contract-log record shape. `value` holds
decoded bytes (a JS `Buffer`), modelled as a list of byte values. -/
structure DbSmartContractEvent extends DbEventBase where
  event_type : DbEventTypeId
  contract_identifier : String
  topic : String
  value : List Nat
deriving DecidableEq

/-- `DbStxEvent`: STX asset record shape; `sender`/`recipient` are optional
fields, absent (`none`) when the source's record literal omits them. -/
structure DbStxEvent extends DbEventBase where
  event_type : DbEventTypeId
  asset_event_type_id : DbAssetEventTypeId
  sender : Option String
  recipient : Option String
  amount : Nat
deriving DecidableEq

/-- `DbFtEvent`: fungible-token record shape. -/
structure DbFtEvent extends DbEventBase where
  event_type : DbEventTypeId
  asset_event_type_id : DbAssetEventTypeId
  sender : Option String
  recipient : Option String
  asset_identifier : String
  amount : Nat
deriving DecidableEq

/-- `DbNftEvent`: non-fungible-token record shape. -/
structure DbNftEvent extends DbEventBase where
  event_type : DbEventTypeId
  asset_event_type_id : DbAssetEventTypeId
  sender : Option String
  recipient : Option String
  asset_identifier : String
  value : List Nat
deriving DecidableEq

/-- One store call, mirroring the `DataStore` surface the applier uses. -/
inductive StoreCall where
  | updateBlock (b : DbBlock)
  | updateTx (t : DbTx)
  | updateSmartContract (c : DbSmartContract)
  | updateSmartContractEvent (e : DbSmartContractEvent)
  | updateStxEvent (e : DbStxEvent)
  | updateFtEvent (e : DbFtEvent)
  | updateNftEvent (e : DbNftEvent)
deriving DecidableEq

/-! ## External helpers modelled from the spec -/

/-- Value of one hexadecimal digit character (0 for non-digits; the
claims only concern well-formed hex input). -/
def hexDigitVal (c : Char) : Nat :=
  if '0' ≤ c ∧ c ≤ '9' then c.toNat - 48
  else if 'a' ≤ c ∧ c ≤ 'f' then c.toNat - 87
  else if 'A' ≤ c ∧ c ≤ 'F' then c.toNat - 55
  else 0

/-- Consecutive pairs of hex digits to byte values. -/
def hexPairsToBytes : List Char → List Nat
  | h :: l :: rest => (16 * hexDigitVal h + hexDigitVal l) :: hexPairsToBytes rest
  | _ => []

/-- Drop a leading `0x` marker if present. -/
def dropHexMarker : List Char → List Char
  | '0' :: 'x' :: rest => rest
  | l => l

/-- Modelled from the spec: `hexToBuffer` lives in `src/helpers.ts`, which
is not part of the provided source. Per §4.4/§8 it decodes a hex-encoded
string (the §8 scenario shows a `0x` marker) to "the exact byte sequence
represented by the hex string, including the empty string decoding to zero
bytes". -/
def hexToBuffer (s : String) : List Nat :=
  hexPairsToBytes (dropHexMarker s.data)

/-- Modelled from the spec: JS `BigInt` applied to the decimal-string
amount fields (§4.4, "amount (parsed as arbitrary-precision integer from a
decimal string)"). -/
def jsBigIntAux : List Char → Nat → Nat
  | [], acc => acc
  | c :: rest, acc => jsBigIntAux rest (10 * acc + (c.toNat - 48))

/-- Decimal string to natural number, see `jsBigIntAux`. -/
def jsBigInt (s : String) : Nat :=
  jsBigIntAux s.data 0

/-! ## Event classifier (the `switch` at lines 63-171) -/

/-- The event classifier: from block height, position index and one raw
event to exactly one store call carrying the constructed event record, or
an error for a tag outside the closed set (the `default` branch's
`throw new Error`). Field assignments follow the source cases verbatim;
`sender`/`recipient` are `none` exactly where the source record literal
has no such field. -/
def classifyEvent (block_height : Nat) (event_index : Nat) (event : RawEvent) :
    Except String StoreCall :=
  match event with
  | .contractEvent txid contract_identifier topic raw_value =>
      .ok (.updateSmartContractEvent
        { event_index := event_index, tx_id := txid, block_height := block_height,
          canonical := true,
          event_type := .smartContractLog,
          contract_identifier := contract_identifier, topic := topic,
          value := hexToBuffer raw_value })
  | .stxTransferEvent txid sender recipient amount =>
      .ok (.updateStxEvent
        { event_index := event_index, tx_id := txid, block_height := block_height,
          canonical := true,
          event_type := .stxAsset, asset_event_type_id := .transfer,
          sender := some sender, recipient := some recipient,
          amount := jsBigInt amount })
  | .stxMintEvent txid recipient amount =>
      .ok (.updateStxEvent
        { event_index := event_index, tx_id := txid, block_height := block_height,
          canonical := true,
          event_type := .stxAsset, asset_event_type_id := .mint,
          sender := none, recipient := some recipient,
          amount := jsBigInt amount })
  | .stxBurnEvent txid sender amount =>
      .ok (.updateStxEvent
        { event_index := event_index, tx_id := txid, block_height := block_height,
          canonical := true,
          event_type := .stxAsset, asset_event_type_id := .burn,
          sender := some sender, recipient := none,
          amount := jsBigInt amount })
  | .ftTransferEvent txid sender recipient asset_identifier amount =>
      .ok (.updateFtEvent
        { event_index := event_index, tx_id := txid, block_height := block_height,
          canonical := true,
          event_type := .fungibleTokenAsset, asset_event_type_id := .transfer,
          sender := some sender, recipient := some recipient,
          asset_identifier := asset_identifier, amount := jsBigInt amount })
  | .ftMintEvent txid recipient asset_identifier amount =>
      .ok (.updateFtEvent
        { event_index := event_index, tx_id := txid, block_height := block_height,
          canonical := true,
          event_type := .fungibleTokenAsset, asset_event_type_id := .mint,
          sender := none, recipient := some recipient,
          asset_identifier := asset_identifier, amount := jsBigInt amount })
  | .nftTransferEvent txid sender recipient asset_identifier raw_value =>
      .ok (.updateNftEvent
        { event_index := event_index, tx_id := txid, block_height := block_height,
          canonical := true,
          event_type := .nonFungibleTokenAsset, asset_event_type_id := .transfer,
          sender := some sender, recipient := some recipient,
          asset_identifier := asset_identifier, value := hexToBuffer raw_value })
  | .nftMintEvent txid recipient asset_identifier raw_value =>
      .ok (.updateNftEvent
        { event_index := event_index, tx_id := txid, block_height := block_height,
          canonical := true,
          event_type := .nonFungibleTokenAsset, asset_event_type_id := .mint,
          sender := none, recipient := some recipient,
          asset_identifier := asset_identifier, value := hexToBuffer raw_value })
  | .unknownEvent _ tag =>
      .error ("Unexpected CoreNodeEventType: " ++ tag)

/-! ## Message applier (`handleClientMessage`, lines 37-172)

The applier is embedded as the list of sequential steps it performs —
each step either a store call or a classification failure — together with
an executor that runs the steps against a store whose individual writes
may fail. A failing write or a classification failure ends the run with
an error, leaving the calls already made in place (the source `await`s
each write in sequence and lets the first exception propagate out of the
function). -/

/-- One step of a message application: an awaited store call, or the
`throw` of the classifier's `default` branch. -/
inductive Step where
  | call (c : StoreCall)
  | classifyError (msg : String)
deriving DecidableEq

/-- The store call of a step, if it is one. -/
def Step.callOf : Step → Option StoreCall
  | .call c => some c
  | .classifyError _ => none

/-- The store calls among a list of steps, in order. -/
def callsOfSteps (steps : List Step) : List StoreCall :=
  steps.filterMap Step.callOf

/-- Whether a step goes through: a store call succeeds when the store
accepts it; a classification failure never goes through. -/
def stepOk (ok : StoreCall → Bool) : Step → Bool
  | .call c => ok c
  | .classifyError _ => false

/-- The `DbBlock` derived from the parsed message (lines 38-46). -/
def blockRecordOf (pm : ParsedMessage) : DbBlock :=
  { canonical := true,
    block_hash := pm.block_hash,
    index_block_hash := pm.index_block_hash,
    parent_block_hash := pm.parent_block_hash,
    parent_microblock := pm.parent_microblock,
    block_height := pm.block_height,
    burn_block_time := pm.burn_block_time }

/-- The store calls of one transaction (lines 48-62): its `updateTx`, and
for a smart-contract payload also the `updateSmartContract` of the derived
contract record with `contract_id` the sender address, a dot, and the
contract name. -/
def txCalls (block_height : Nat) (tx : ParsedTx) : List StoreCall :=
  StoreCall.updateTx (createDbTxFromCoreMsg tx) ::
    match tx.payload with
    | .smartContract name codeBody =>
        [StoreCall.updateSmartContract
          { tx_id := tx.txid,
            contract_id := tx.sender_address ++ "." ++ name,
            block_height := block_height,
            source_code := codeBody,
            abi := tx.contract_abi_json,
            canonical := true }]
    | .otherPayload => []

/-- The step of one event at loop index `i`: the classified record's store
call, or the classification failure. -/
def eventStep (block_height i : Nat) (e : RawEvent) : Step :=
  match classifyEvent block_height i e with
  | .ok c => .call c
  | .error m => .classifyError m

/-- The steps of the event loop (lines 63-171) starting at index `i`. -/
def eventSteps (block_height i : Nat) : List RawEvent → List Step
  | [] => []
  | e :: rest => eventStep block_height i e :: eventSteps block_height (i + 1) rest

/-- All steps of one message application, in source order: the block
write, then per-transaction writes, then per-event classification and
writes. -/
def messageSteps (pm : ParsedMessage) : List Step :=
  Step.call (.updateBlock (blockRecordOf pm)) ::
    ((pm.parsed_transactions.flatMap (txCalls pm.block_height)).map Step.call ++
      eventSteps pm.block_height 0 pm.events)

/-- Run steps in order against a store acceptance predicate: the first
failing step (rejected write, or classification failure) aborts the rest
and surfaces an error; calls already made stay made. -/
def execSteps (ok : StoreCall → Bool) : List Step → List StoreCall × Except String Unit
  | [] => ([], .ok ())
  | .classifyError m :: _ => ([], .error m)
  | .call c :: rest =>
      if ok c then
        let r := execSteps ok rest
        (c :: r.1, r.2)
      else
        ([], .error "store error")

/-- The message applier: the trace of store calls made for one parsed
message and the outcome of the queued task. -/
def applyParsedMessage (ok : StoreCall → Bool) (pm : ParsedMessage) :
    List StoreCall × Except String Unit :=
  execSteps ok (messageSteps pm)

/-- The classified store calls of the events from loop index `i` on
(skipping nothing when every event is recognized). -/
def classifiedCalls (block_height i : Nat) : List RawEvent → List StoreCall
  | [] => []
  | e :: rest =>
      match classifyEvent block_height i e with
      | .ok c => c :: classifiedCalls block_height (i + 1) rest
      | .error _ => classifiedCalls block_height (i + 1) rest

/-- The serial queue as `createMessageProcessorQueue` uses it: tasks are
handled one after the other, each message fully applied before the next
(`execQueue` is the functional view; the step relation `QStep` below is
the operational one). A task's failure does not stop the later tasks. -/
def execQueue (ok : StoreCall → Bool) :
    List ParsedMessage → List (List StoreCall × Except String Unit)
  | [] => []
  | pm :: rest => applyParsedMessage ok pm :: execQueue ok rest

/-! ## Serial dispatch queue (lines 176-183)

Modelled from the spec: the `p-queue` package (`new PQueue({ concurrency: 1 })`)
is external to the source; §4.2 specifies it as an admission gate with
concurrency exactly 1 running tasks strictly in submission order. The model
is a scheduler over a list of tasks (each a list of atomic emitted calls):
it may start the next pending task only when none is running, emit the
running task's next call, or retire a finished task. -/

/-- Scheduler state: pending tasks in arrival order, the at-most-one
running task's remaining calls, and the calls emitted so far (what the
store has observed). -/
structure QState (α : Type) where
  pending : List (List α)
  running : Option (List α)
  emitted : List α
deriving DecidableEq

/-- One scheduler move under the concurrency-1 gate. -/
inductive QStep {α : Type} : QState α → QState α → Prop where
  | start (t : List α) (rest : List (List α)) (tr : List α) :
      QStep ⟨t :: rest, none, tr⟩ ⟨rest, some t, tr⟩
  | emit (p : List (List α)) (c : α) (cs : List α) (tr : List α) :
      QStep ⟨p, some (c :: cs), tr⟩ ⟨p, some cs, tr ++ [c]⟩
  | finish (p : List (List α)) (tr : List α) :
      QStep ⟨p, some [], tr⟩ ⟨p, none, tr⟩

/-- A complete scheduler run: zero or more moves. -/
def QRun {α : Type} : QState α → QState α → Prop :=
  Relation.ReflTransGen QStep

/-- The store-observed calls of the i-th submitted message, tagged with i
so a trace records which message each call belongs to. -/
def taggedTask (ok : StoreCall → Bool) (i : Nat) (pm : ParsedMessage) :
    List (Nat × StoreCall) :=
  (applyParsedMessage ok pm).1.map (fun c => (i, c))

/-- The tagged tasks of the submitted messages, in queue-arrival order. -/
def taggedTasks (ok : StoreCall → Bool) (msgs : List ParsedMessage) :
    List (List (Nat × StoreCall)) :=
  (List.range msgs.length).zipWith (taggedTask ok) msgs

/-! ## Connection boundary (lines 22-36 and 176-198) -/

/-- What reading one connection yields: `readMessageFromStream` returning
`undefined` (empty message), throwing (decode error), or producing a
message, which `parseMessageTransactions` (external, total per §6) turns
into a `ParsedMessage`. -/
inductive ConnInput where
  | emptyRead
  | decodeError
  | message (pm : ParsedMessage)
deriving DecidableEq

/-- Observable outcome of one `handleClientMessage` call: the store calls
made, whether the socket was destroyed, and whether the returned promise
resolved (`Except.ok`) or rejected. -/
structure HandleResult where
  trace : List StoreCall
  socketDestroyed : Bool
  result : Except String Unit

/-- `handleClientMessage` (lines 22-172): an empty read returns early with
no store calls; a decode error destroys the socket and returns (the
exception is caught, so the promise still resolves); otherwise the message
is applied. -/
def handleClientMessage (ok : StoreCall → Bool) : ConnInput → HandleResult
  | .emptyRead => { trace := [], socketDestroyed := false, result := .ok () }
  | .decodeError => { trace := [], socketDestroyed := true, result := .ok () }
  | .message pm =>
      { trace := (applyParsedMessage ok pm).1,
        socketDestroyed := false,
        result := (applyParsedMessage ok pm).2 }

/-- The tasks `createMessageProcessorQueue`'s handler submits to the queue
for a list of accepted connections: lines 179-181 call
`processorQueue.add(() => handleClientMessage(clientSocket, db))`
unconditionally for every connection, before anything is read from the
socket — reading and decoding happen inside the queued task. -/
def queueTasksForConnections (conns : List ConnInput) : List ConnInput :=
  conns.flatMap (fun conn => [conn])

/-! ## Observers and sample inputs used by the theorems -/

/-- The `event_index` carried by a store call, when it writes an event
record. -/
def eventIndexOf? : StoreCall → Option Nat
  | .updateSmartContractEvent e => some e.event_index
  | .updateStxEvent e => some e.event_index
  | .updateFtEvent e => some e.event_index
  | .updateNftEvent e => some e.event_index
  | _ => none

/-- The `canonical` flag carried by a store call; `none` for the
TransactionRecord, whose shape is external to the source. -/
def canonicalOf? : StoreCall → Option Bool
  | .updateBlock b => some b.canonical
  | .updateTx _ => none
  | .updateSmartContract c => some c.canonical
  | .updateSmartContractEvent e => some e.canonical
  | .updateStxEvent e => some e.canonical
  | .updateFtEvent e => some e.canonical
  | .updateNftEvent e => some e.canonical

/-- Whether a store call writes a ContractRecord. -/
def isContractCall : StoreCall → Bool
  | .updateSmartContract _ => true
  | _ => false

/-- The decoded-bytes `value` field carried by a store call, when its
record has one (contract logs and NFT events). -/
def storedValue? : StoreCall → Option (List Nat)
  | .updateSmartContractEvent e => some e.value
  | .updateNftEvent e => some e.value
  | _ => none

/-- A store that accepts every write. -/
def allOkStore : StoreCall → Bool := fun _ => true

/-- Sample transaction carrying a contract deployment. -/
def txA : ParsedTx :=
  { sender_address := "SP1", txid := "0xtx1", contract_abi_json := "null",
    payload := TxPayload.smartContract "foo" "(code)" }

/-- Sample message with no transactions and no events, height 1. -/
def pmA : ParsedMessage :=
  { block_hash := "0xa", index_block_hash := "0xia", parent_block_hash := "0xpa",
    parent_microblock := "0xma", block_height := 1, burn_block_time := 10,
    parsed_transactions := [], events := [] }

/-- Sample message with no transactions and no events, height 2. -/
def pmB : ParsedMessage :=
  { block_hash := "0xb", index_block_hash := "0xib", parent_block_hash := "0xpb",
    parent_microblock := "0xmb", block_height := 2, burn_block_time := 20,
    parsed_transactions := [], events := [] }

/-- The §8 scenario message: height 100, one STX mint event and one
contract-log event. -/
def pmScenario : ParsedMessage :=
  { block_hash := "0xs", index_block_hash := "0xis", parent_block_hash := "0xps",
    parent_microblock := "0xms", block_height := 100, burn_block_time := 30,
    parsed_transactions := [],
    events := [RawEvent.stxMintEvent "0xtx1" "SPabc" "500",
               RawEvent.contractEvent "0xtx1" "SPabc.foo" "print" "0x0100"] }

/-- Sample message whose single event has a tag outside the closed set. -/
def pmBad : ParsedMessage :=
  { block_hash := "0xc", index_block_hash := "0xic", parent_block_hash := "0xpc",
    parent_microblock := "0xmc", block_height := 3, burn_block_time := 40,
    parsed_transactions := [],
    events := [RawEvent.unknownEvent "0xtx9" "bogus"] }

/-- The STX mint record the classifier produces for the §8 scenario's
first event. -/
def cMint : StoreCall :=
  StoreCall.updateStxEvent
    { event_index := 0, tx_id := "0xtx1", block_height := 100, canonical := true,
      event_type := DbEventTypeId.stxAsset,
      asset_event_type_id := DbAssetEventTypeId.mint,
      sender := none, recipient := some "SPabc", amount := jsBigInt "500" }

/-- The concrete store-observed trace of the two-message scheduler run
used as a witness. -/
def trW : List (Nat × StoreCall) :=
  [(0, StoreCall.updateBlock (blockRecordOf pmA)),
   (1, StoreCall.updateBlock (blockRecordOf pmB))]

/-! ## Helper lemmas -/

/-- Any complete run of the concurrency-1 scheduler ends with exactly the
initial emitted calls, then the running task's remaining calls, then the
pending tasks' calls in arrival order. -/
theorem qrun_emitted {α : Type} (s t : QState α) (h : QRun s t)
    (hp : t.pending = []) (hr : t.running = none) :
    t.emitted = s.emitted ++ s.running.getD [] ++ s.pending.flatten := by
  induction h using Relation.ReflTransGen.head_induction_on with
  | refl => simp [hp, hr]
  | head step tail ih =>
    cases step with
    | start tk rest tr =>
      simp only [QState.pending, QState.running, QState.emitted] at ih ⊢
      rw [ih]
      simp [List.append_assoc]
    | emit p c cs tr =>
      simp only [QState.pending, QState.running, QState.emitted] at ih ⊢
      rw [ih]
      simp [List.append_assoc]
    | finish p tr =>
      simp only [QState.pending, QState.running, QState.emitted] at ih ⊢
      rw [ih]
      simp

/-- When every step goes through, the executor performs every call in
order and succeeds. -/
theorem execSteps_allOk (ok : StoreCall → Bool) :
    ∀ steps : List Step, (∀ s ∈ steps, stepOk ok s = true) →
      execSteps ok steps = (callsOfSteps steps, Except.ok ()) := by
  intro steps h
  induction steps with
  | nil => rfl
  | cons s rest ih =>
    cases s with
    | call c =>
      have hc := h _ (List.mem_cons_self _ _)
      simp only [stepOk] at hc
      have ih2 := ih (fun s hs => h s (List.mem_cons_of_mem _ hs))
      simp [execSteps, hc, callsOfSteps, Step.callOf, ih2]
    | classifyError m =>
      have hc := h _ (List.mem_cons_self _ _)
      simp [stepOk] at hc

/-- When the executor ends in an error, the step list splits into a
wholly-successful part, whose calls are exactly the trace, followed by the
failing step; nothing after the failing step reaches the store. -/
theorem execSteps_error (ok : StoreCall → Bool) :
    ∀ (steps : List Step) (e : String), (execSteps ok steps).2 = Except.error e →
      ∃ pre fail post, steps = pre ++ fail :: post ∧
        (∀ s ∈ pre, stepOk ok s = true) ∧ stepOk ok fail = false ∧
        (execSteps ok steps).1 = callsOfSteps pre := by
  intro steps
  induction steps with
  | nil => intro e h; simp [execSteps] at h
  | cons s rest ih =>
    intro e h
    cases s with
    | classifyError m =>
      exact ⟨[], Step.classifyError m, rest, rfl, by simp, rfl, by simp [execSteps, callsOfSteps]⟩
    | call c =>
      cases hc : ok c with
      | true =>
        have h2 : (execSteps ok rest).2 = Except.error e := by
          simpa [execSteps, hc] using h
        obtain ⟨pre, fail, post, hsteps, hpre, hfail, htr⟩ := ih e h2
        refine ⟨Step.call c :: pre, fail, post, by simp [hsteps], ?_, hfail, ?_⟩
        · intro s hs
          rcases List.mem_cons.mp hs with h1 | h1
          · subst h1; simpa [stepOk] using hc
          · exact hpre s h1
        · simp [execSteps, hc, callsOfSteps, Step.callOf, htr]
      | false =>
        refine ⟨[], Step.call c, rest, rfl, by simp, by simpa [stepOk] using hc, ?_⟩
        simp [execSteps, hc, callsOfSteps]

/-- Every recognized tag classifies successfully. -/
theorem classify_ok_of_recognized (bh i : Nat) (e : RawEvent)
    (h : e.recognized = true) : ∃ c, classifyEvent bh i e = Except.ok c := by
  cases e <;> simp [RawEvent.recognized] at h ⊢ <;> simp [classifyEvent]

/-- The classifier stamps the loop index into the produced record's
`event_index`, unchanged. -/
theorem classify_eventIndex (bh i : Nat) (e : RawEvent) (c : StoreCall)
    (h : classifyEvent bh i e = Except.ok c) : eventIndexOf? c = some i := by
  cases e <;> simp [classifyEvent] at h <;> subst h <;> rfl

/-- Every record the classifier produces has `canonical = true`. -/
theorem classify_canonical (bh i : Nat) (e : RawEvent) (c : StoreCall)
    (h : classifyEvent bh i e = Except.ok c) : canonicalOf? c = some true := by
  cases e <;> simp [classifyEvent] at h <;> subst h <;> rfl

/-- The calls among the event-loop steps are the classified calls. -/
theorem callsOf_eventSteps (bh : Nat) :
    ∀ (evs : List RawEvent) (i : Nat),
      callsOfSteps (eventSteps bh i evs) = classifiedCalls bh i evs := by
  intro evs
  induction evs with
  | nil => intro i; rfl
  | cons e rest ih =>
    intro i
    cases hc : classifyEvent bh i e with
    | ok c =>
      simp [eventSteps, eventStep, classifiedCalls, hc, callsOfSteps, Step.callOf]
      exact ih (i + 1)
    | error m =>
      simp [eventSteps, eventStep, classifiedCalls, hc, callsOfSteps, Step.callOf]
      exact ih (i + 1)

/-- Any call among the event-loop steps is the classification of some
event at some index. -/
theorem eventSteps_mem (bh : Nat) :
    ∀ (evs : List RawEvent) (i : Nat) (c : StoreCall),
      Step.call c ∈ eventSteps bh i evs →
      ∃ j e, classifyEvent bh j e = Except.ok c := by
  intro evs
  induction evs with
  | nil => intro i c h; simp [eventSteps] at h
  | cons e rest ih =>
    intro i c h
    rcases List.mem_cons.mp h with h1 | h1
    · cases hc : classifyEvent bh i e with
      | ok c2 =>
        refine ⟨i, e, ?_⟩
        rw [hc]
        simp [eventStep, hc] at h1
        rw [h1]
      | error m => simp [eventStep, hc] at h1
    · exact ih (i + 1) c h1

/-- When every event is recognized, every event-loop step is a store
call that an always-accepting store lets through. -/
theorem eventSteps_ok_of_recognized (bh : Nat) :
    ∀ (evs : List RawEvent) (i : Nat),
      (∀ e ∈ evs, e.recognized = true) →
      ∀ s ∈ eventSteps bh i evs, stepOk allOkStore s = true := by
  intro evs
  induction evs with
  | nil => intro i _ s hs; simp [eventSteps] at hs
  | cons e rest ih =>
    intro i hr s hs
    rcases List.mem_cons.mp hs with h1 | h1
    · obtain ⟨c, hc⟩ := classify_ok_of_recognized bh i e (hr e (List.mem_cons_self _ _))
      subst h1
      simp [eventStep, hc, stepOk, allOkStore]
    · exact ih (i + 1) (fun e2 he2 => hr e2 (List.mem_cons_of_mem _ he2)) s h1

/-- When every event is recognized, the classified calls carry exactly
the indices `i, i+1, …` in order. -/
theorem classifiedCalls_indices (bh : Nat) :
    ∀ (evs : List RawEvent) (i : Nat),
      (∀ e ∈ evs, e.recognized = true) →
      (classifiedCalls bh i evs).filterMap eventIndexOf? = List.range' i evs.length := by
  intro evs
  induction evs with
  | nil => intro i _; rfl
  | cons e rest ih =>
    intro i hr
    obtain ⟨c, hc⟩ := classify_ok_of_recognized bh i e (hr e (List.mem_cons_self _ _))
    have hidx := classify_eventIndex bh i e c hc
    simp [classifiedCalls, hc, List.filterMap_cons, hidx, List.range'_succ,
      ih (i + 1) (fun e2 he2 => hr e2 (List.mem_cons_of_mem _ he2))]

/-- Transaction calls carry no `event_index`. -/
theorem txCalls_no_eventIndex (bh : Nat) (tx : ParsedTx) :
    (txCalls bh tx).filterMap eventIndexOf? = [] := by
  cases htx : tx.payload <;> simp [txCalls, htx, eventIndexOf?]

/-- The whole transaction loop carries no `event_index`. -/
theorem txLoop_no_eventIndex (bh : Nat) :
    ∀ txs : List ParsedTx,
      ((txs.flatMap (txCalls bh)).filterMap eventIndexOf?) = [] := by
  intro txs
  induction txs with
  | nil => rfl
  | cons tx rest ih =>
    simp [List.flatMap_cons, List.filterMap_append, txCalls_no_eventIndex, ih]

/-- When every event of a message is recognized, every step of its
application is a call the always-accepting store lets through. -/
theorem messageSteps_allOk (pm : ParsedMessage)
    (hev : ∀ e ∈ pm.events, e.recognized = true) :
    ∀ s ∈ messageSteps pm, stepOk allOkStore s = true := by
  intro s hs
  rcases List.mem_cons.mp hs with h1 | h1
  · subst h1; rfl
  · rcases List.mem_append.mp h1 with h2 | h2
    · obtain ⟨c, _, hc⟩ := List.mem_map.mp h2
      subst hc; rfl
    · exact eventSteps_ok_of_recognized pm.block_height pm.events 0 hev s h2

/-- A call step contributes its call to the trace head. -/
theorem callsOf_cons_call (c : StoreCall) (l : List Step) :
    callsOfSteps (Step.call c :: l) = c :: callsOfSteps l := rfl

/-- The trace of concatenated steps is the concatenation of traces. -/
theorem callsOf_append (a b : List Step) :
    callsOfSteps (a ++ b) = callsOfSteps a ++ callsOfSteps b := by
  simp [callsOfSteps]

/-- Wrapping calls as steps and taking the calls back is the identity. -/
theorem callsOf_map_call (l : List StoreCall) :
    callsOfSteps (l.map Step.call) = l := by
  induction l with
  | nil => rfl
  | cons c rest ih => simp [callsOfSteps, Step.callOf] at ih ⊢; exact ih

/-! ## Claims -/

/-- C1: any complete run of the concurrency-1 dispatch queue on N
submitted messages makes the store observe exactly the N message
applications, each message's calls contiguous, in queue-arrival order —
the observed trace is the concatenation of the per-message traces with no
interleaving across messages. -/
theorem serialQueueTrace (ok : StoreCall → Bool) (msgs : List ParsedMessage)
    (tr : List (Nat × StoreCall))
    (h : QRun ⟨taggedTasks ok msgs, none, []⟩ ⟨[], none, tr⟩) :
    tr = (taggedTasks ok msgs).flatten ∧
    (taggedTasks ok msgs).length = msgs.length := by
  constructor
  · have h2 := qrun_emitted _ _ h rfl rfl
    simpa using h2
  · simp [taggedTasks]

/-- C1 witness: a concrete complete run on two messages observes the two
block writes, grouped by message, in submission order. -/
theorem serialQueueTrace_witness :
    trW = (taggedTasks allOkStore [pmA, pmB]).flatten ∧
    (taggedTasks allOkStore [pmA, pmB]).length = 2 := by
  have h1 : taggedTasks allOkStore [pmA, pmB] =
      [[(0, StoreCall.updateBlock (blockRecordOf pmA))],
       [(1, StoreCall.updateBlock (blockRecordOf pmB))]] := rfl
  have hrun : QRun (⟨taggedTasks allOkStore [pmA, pmB], none, []⟩ : QState (Nat × StoreCall))
      ⟨[], none, trW⟩ := by
    rw [h1]
    refine Relation.ReflTransGen.head (QStep.start _ _ _) ?_
    refine Relation.ReflTransGen.head (QStep.emit _ _ _ _) ?_
    refine Relation.ReflTransGen.head (QStep.finish _ _) ?_
    refine Relation.ReflTransGen.head (QStep.start _ _ _) ?_
    refine Relation.ReflTransGen.head (QStep.emit _ _ _ _) ?_
    refine Relation.ReflTransGen.head (QStep.finish _ _) ?_
    exact Relation.ReflTransGen.refl
  exact serialQueueTrace allOkStore [pmA, pmB] trW hrun

/-- C2: when a message application fails — a rejected store write or an
unrecognized event tag — the steps split into a wholly successful part
followed by the failing step; the trace is exactly the calls of the
successful part (already-applied records remain, nothing after the
failure reaches the store, and a classification failure contributes no
EventRecord), the error having been propagated as the task's result; the
queue still runs every subsequent message. -/
theorem applyFailureAborts (ok : StoreCall → Bool) (pm : ParsedMessage) (e : String)
    (h : (applyParsedMessage ok pm).2 = Except.error e) :
    (∃ pre fail post,
        messageSteps pm = pre ++ fail :: post ∧
        (∀ s ∈ pre, stepOk ok s = true) ∧
        stepOk ok fail = false ∧
        (applyParsedMessage ok pm).1 = callsOfSteps pre) ∧
    ∀ rest, execQueue ok (pm :: rest) =
      applyParsedMessage ok pm :: execQueue ok rest :=
  ⟨execSteps_error ok (messageSteps pm) e h, fun _ => rfl⟩

/-- C2 witness: a message whose single event has an unrecognized tag
fails with the classifier's error, and its trace is the successful part
before the failing step. -/
theorem applyFailureAborts_witness :
    (applyParsedMessage allOkStore pmBad).2 =
      Except.error "Unexpected CoreNodeEventType: bogus" ∧
    ∃ pre fail post,
      messageSteps pmBad = pre ++ fail :: post ∧
      (∀ s ∈ pre, stepOk allOkStore s = true) ∧
      stepOk allOkStore fail = false ∧
      (applyParsedMessage allOkStore pmBad).1 = callsOfSteps pre :=
  ⟨rfl,
   (applyFailureAborts allOkStore pmBad "Unexpected CoreNodeEventType: bogus" rfl).1⟩

/-- C3: a successfully applied message issues its store writes in exactly
the source order — the single BlockRecord first, then per transaction its
TransactionRecord (followed by the derived ContractRecord when it deploys
a contract), then the classified EventRecords in event order. -/
theorem applyOrder (pm : ParsedMessage)
    (hev : ∀ e ∈ pm.events, RawEvent.recognized e = true) :
    applyParsedMessage allOkStore pm =
      (StoreCall.updateBlock (blockRecordOf pm) ::
        (pm.parsed_transactions.flatMap (txCalls pm.block_height) ++
          classifiedCalls pm.block_height 0 pm.events),
        Except.ok ()) := by
  have h1 := execSteps_allOk allOkStore (messageSteps pm) (messageSteps_allOk pm hev)
  have h2 : callsOfSteps (messageSteps pm) =
      StoreCall.updateBlock (blockRecordOf pm) ::
        (pm.parsed_transactions.flatMap (txCalls pm.block_height) ++
          classifiedCalls pm.block_height 0 pm.events) := by
    unfold messageSteps
    rw [callsOf_cons_call, callsOf_append, callsOf_map_call, callsOf_eventSteps]
  show execSteps allOkStore (messageSteps pm) = _
  rw [h1, h2]

/-- C3 witness: the §8 scenario message applies fully, in order. -/
theorem applyOrder_witness :
    (∀ e ∈ pmScenario.events, RawEvent.recognized e = true) ∧
    applyParsedMessage allOkStore pmScenario =
      (StoreCall.updateBlock (blockRecordOf pmScenario) ::
        (pmScenario.parsed_transactions.flatMap (txCalls pmScenario.block_height) ++
          classifiedCalls pmScenario.block_height 0 pmScenario.events),
        Except.ok ()) :=
  ⟨by decide, applyOrder pmScenario (by decide)⟩

/-- C4: for each of the eight recognized tags, classification produces
exactly the record of the §4.4 table — mint records carry `sender = none`
and burn records `recipient = none`, the field absent rather than
zero-valued. -/
theorem classifierTable (bh i : Nat)
    (txid cid topic rawv sender recipient asset amount : String) :
    classifyEvent bh i (RawEvent.contractEvent txid cid topic rawv) =
      Except.ok (StoreCall.updateSmartContractEvent
        { event_index := i, tx_id := txid, block_height := bh, canonical := true,
          event_type := DbEventTypeId.smartContractLog,
          contract_identifier := cid, topic := topic,
          value := hexToBuffer rawv }) ∧
    classifyEvent bh i (RawEvent.stxTransferEvent txid sender recipient amount) =
      Except.ok (StoreCall.updateStxEvent
        { event_index := i, tx_id := txid, block_height := bh, canonical := true,
          event_type := DbEventTypeId.stxAsset,
          asset_event_type_id := DbAssetEventTypeId.transfer,
          sender := some sender, recipient := some recipient,
          amount := jsBigInt amount }) ∧
    classifyEvent bh i (RawEvent.stxMintEvent txid recipient amount) =
      Except.ok (StoreCall.updateStxEvent
        { event_index := i, tx_id := txid, block_height := bh, canonical := true,
          event_type := DbEventTypeId.stxAsset,
          asset_event_type_id := DbAssetEventTypeId.mint,
          sender := none, recipient := some recipient,
          amount := jsBigInt amount }) ∧
    classifyEvent bh i (RawEvent.stxBurnEvent txid sender amount) =
      Except.ok (StoreCall.updateStxEvent
        { event_index := i, tx_id := txid, block_height := bh, canonical := true,
          event_type := DbEventTypeId.stxAsset,
          asset_event_type_id := DbAssetEventTypeId.burn,
          sender := some sender, recipient := none,
          amount := jsBigInt amount }) ∧
    classifyEvent bh i (RawEvent.ftTransferEvent txid sender recipient asset amount) =
      Except.ok (StoreCall.updateFtEvent
        { event_index := i, tx_id := txid, block_height := bh, canonical := true,
          event_type := DbEventTypeId.fungibleTokenAsset,
          asset_event_type_id := DbAssetEventTypeId.transfer,
          sender := some sender, recipient := some recipient,
          asset_identifier := asset, amount := jsBigInt amount }) ∧
    classifyEvent bh i (RawEvent.ftMintEvent txid recipient asset amount) =
      Except.ok (StoreCall.updateFtEvent
        { event_index := i, tx_id := txid, block_height := bh, canonical := true,
          event_type := DbEventTypeId.fungibleTokenAsset,
          asset_event_type_id := DbAssetEventTypeId.mint,
          sender := none, recipient := some recipient,
          asset_identifier := asset, amount := jsBigInt amount }) ∧
    classifyEvent bh i (RawEvent.nftTransferEvent txid sender recipient asset rawv) =
      Except.ok (StoreCall.updateNftEvent
        { event_index := i, tx_id := txid, block_height := bh, canonical := true,
          event_type := DbEventTypeId.nonFungibleTokenAsset,
          asset_event_type_id := DbAssetEventTypeId.transfer,
          sender := some sender, recipient := some recipient,
          asset_identifier := asset, value := hexToBuffer rawv }) ∧
    classifyEvent bh i (RawEvent.nftMintEvent txid recipient asset rawv) =
      Except.ok (StoreCall.updateNftEvent
        { event_index := i, tx_id := txid, block_height := bh, canonical := true,
          event_type := DbEventTypeId.nonFungibleTokenAsset,
          asset_event_type_id := DbAssetEventTypeId.mint,
          sender := none, recipient := some recipient,
          asset_identifier := asset, value := hexToBuffer rawv }) :=
  ⟨rfl, rfl, rfl, rfl, rfl, rfl, rfl, rfl⟩

/-- C5 counterexample: a connection whose read will fail to decode still
results in a queue submission — `processorQueue.add` is called
unconditionally per connection, before anything is read, so the set of
queued tasks for one decode-failing connection is not empty as the claim
requires. -/
theorem queueSubmittedOnDecodeError :
    queueTasksForConnections [ConnInput.decodeError] ≠ [] := by
  simp [queueTasksForConnections]

/-- C5 (amended): for every accepted connection the acceptor submits
exactly one task to the Serial Dispatch Queue, unconditionally; reading
and decoding the framed message happen inside the queued task, and on an
empty read or a decode error that task performs no store calls and
completes without error. -/
theorem acceptorSubmitsUnconditionally (conns : List ConnInput) (ok : StoreCall → Bool) :
    queueTasksForConnections conns = conns ∧
    ∀ conn ∈ conns, (conn = ConnInput.emptyRead ∨ conn = ConnInput.decodeError) →
      (handleClientMessage ok conn).trace = [] ∧
      (handleClientMessage ok conn).result = Except.ok () := by
  constructor
  · induction conns with
    | nil => rfl
    | cons c rest ih => simp [queueTasksForConnections] at ih ⊢
  · intro conn _ hcase
    rcases hcase with h | h <;> subst h <;> exact ⟨rfl, rfl⟩

/-- C5 witness: one decode-failing connection yields one queued task,
which makes no store calls and resolves. -/
theorem acceptorSubmitsUnconditionally_witness :
    queueTasksForConnections [ConnInput.decodeError] = [ConnInput.decodeError] ∧
    (handleClientMessage allOkStore ConnInput.decodeError).trace = [] ∧
    (handleClientMessage allOkStore ConnInput.decodeError).result = Except.ok () :=
  ⟨(acceptorSubmitsUnconditionally [ConnInput.decodeError] allOkStore).1,
   (acceptorSubmitsUnconditionally [ConnInput.decodeError] allOkStore).2
     ConnInput.decodeError (List.mem_cons_self _ _) (Or.inr rfl)⟩

/-- C6: in a fully applied message the event records carry `event_index`
values `0, 1, …, N-1` in trace order (unique and order-preserving), and
the classifier stamps each record with exactly its position index. -/
theorem eventIndexSequential (pm : ParsedMessage)
    (hev : ∀ e ∈ pm.events, RawEvent.recognized e = true) :
    (applyParsedMessage allOkStore pm).1.filterMap eventIndexOf? =
      List.range pm.events.length ∧
    ∀ (i : Nat) (e : RawEvent) (c : StoreCall),
      classifyEvent pm.block_height i e = Except.ok c → eventIndexOf? c = some i := by
  constructor
  · have h1 := execSteps_allOk allOkStore (messageSteps pm) (messageSteps_allOk pm hev)
    have htr : (applyParsedMessage allOkStore pm).1 = callsOfSteps (messageSteps pm) := by
      show (execSteps allOkStore (messageSteps pm)).1 = _
      rw [h1]
    rw [htr]
    unfold messageSteps
    rw [callsOf_cons_call, callsOf_append, callsOf_map_call, callsOf_eventSteps]
    simp [eventIndexOf?, List.filterMap_append, txLoop_no_eventIndex,
      classifiedCalls_indices pm.block_height pm.events 0 hev, List.range_eq_range']
  · exact fun i e c h => classify_eventIndex pm.block_height i e c h

/-- C6 witness: the §8 scenario's two events carry indices 0 and 1. -/
theorem eventIndexSequential_witness :
    (∀ e ∈ pmScenario.events, RawEvent.recognized e = true) ∧
    (applyParsedMessage allOkStore pmScenario).1.filterMap eventIndexOf? =
      List.range pmScenario.events.length :=
  ⟨by decide, (eventIndexSequential pmScenario (by decide)).1⟩

/-- C7: a contract-deployment transaction contributes exactly one
ContractRecord, whose `contract_id` is the sender address, a literal dot,
and the contract name, with `canonical = true`. -/
theorem contractDeployRecord (bh : Nat) (tx : ParsedTx) (name code : String)
    (h : tx.payload = TxPayload.smartContract name code) :
    txCalls bh tx =
      [StoreCall.updateTx (createDbTxFromCoreMsg tx),
       StoreCall.updateSmartContract
         { tx_id := tx.txid, contract_id := tx.sender_address ++ "." ++ name,
           block_height := bh, source_code := code,
           abi := tx.contract_abi_json, canonical := true }] ∧
    (txCalls bh tx).countP isContractCall = 1 := by
  refine ⟨?_, ?_⟩ <;> simp [txCalls, h, isContractCall, List.countP_cons]

/-- C7 witness: the sample deployment transaction produces the contract
record `SP1.foo`, canonical, once. -/
theorem contractDeployRecord_witness :
    txA.payload = TxPayload.smartContract "foo" "(code)" ∧
    (txCalls 1 txA =
      [StoreCall.updateTx (createDbTxFromCoreMsg txA),
       StoreCall.updateSmartContract
         { tx_id := txA.txid, contract_id := txA.sender_address ++ "." ++ "foo",
           block_height := 1, source_code := "(code)",
           abi := txA.contract_abi_json, canonical := true }] ∧
     (txCalls 1 txA).countP isContractCall = 1) :=
  ⟨rfl, contractDeployRecord 1 txA "foo" "(code)" rfl⟩

/-- C8: the hex-encoded value fields (a contract log's `raw_value` and an
NFT event's value) are stored as exactly the byte sequence the hex string
represents; the empty string decodes to zero bytes rather than an error,
and the §8 scenario's `0x0100` decodes to the bytes 1, 0. -/
theorem hexValueDecoding (bh i : Nat)
    (txid cid topic sender recipient asset rawv : String) :
    (classifyEvent bh i (RawEvent.contractEvent txid cid topic rawv)).toOption.bind
        storedValue? = some (hexToBuffer rawv) ∧
    (classifyEvent bh i (RawEvent.nftTransferEvent txid sender recipient asset rawv)).toOption.bind
        storedValue? = some (hexToBuffer rawv) ∧
    (classifyEvent bh i (RawEvent.nftMintEvent txid recipient asset rawv)).toOption.bind
        storedValue? = some (hexToBuffer rawv) ∧
    hexToBuffer "" = [] ∧
    hexToBuffer "0x" = [] ∧
    hexToBuffer "0x0100" = [1, 0] :=
  ⟨rfl, rfl, rfl, rfl, rfl, by decide⟩

/-- C9: every record the applier constructs that carries a canonical flag
— the BlockRecord, every ContractRecord and every EventRecord variant —
has it set to true; no step of any message carries a false flag. -/
theorem canonicalAlwaysTrue (pm : ParsedMessage) (c : StoreCall)
    (h : Step.call c ∈ messageSteps pm) :
    canonicalOf? c ≠ some false := by
  rcases List.mem_cons.mp h with h1 | h1
  · have h2 : c = StoreCall.updateBlock (blockRecordOf pm) := by
      injection h1
    subst h2
    simp [canonicalOf?, blockRecordOf]
  · rcases List.mem_append.mp h1 with h2 | h2
    · obtain ⟨c2, hc2mem, hc2⟩ := List.mem_map.mp h2
      have h3 : c2 = c := by injection hc2
      subst h3
      obtain ⟨tx, _, hcall⟩ := List.mem_flatMap.mp hc2mem
      rcases htxp : tx.payload with ⟨name, code⟩ | _ <;>
        simp [txCalls, htxp] at hcall
      · rcases hcall with h4 | h4 <;> subst h4 <;>
          simp [canonicalOf?, createDbTxFromCoreMsg]
      · subst hcall
        simp [canonicalOf?]
    · obtain ⟨j, e, hce⟩ := eventSteps_mem pm.block_height pm.events 0 c h2
      rw [classify_canonical pm.block_height j e c hce]
      simp

/-- C9 witness: the §8 scenario's mint record is in the message's steps
and its canonical flag is not false. -/
theorem canonicalAlwaysTrue_witness :
    Step.call cMint ∈ messageSteps pmScenario ∧ canonicalOf? cMint ≠ some false :=
  ⟨by decide, canonicalAlwaysTrue pmScenario cMint (by decide)⟩

/-- C10: an empty read makes no store calls and resolves without touching
the socket; a decode error makes no store calls, destroys the socket and
still resolves; hence any error the acceptor's handler observes can only
come from applying a decoded message (classification or store writes). -/
theorem connectionBoundary (ok : StoreCall → Bool) (conn : ConnInput) :
    handleClientMessage ok ConnInput.emptyRead =
      { trace := [], socketDestroyed := false, result := Except.ok () } ∧
    handleClientMessage ok ConnInput.decodeError =
      { trace := [], socketDestroyed := true, result := Except.ok () } ∧
    ∀ e : String, (handleClientMessage ok conn).result = Except.error e →
      ∃ pm, conn = ConnInput.message pm := by
  refine ⟨rfl, rfl, ?_⟩
  intro e h
  cases conn with
  | emptyRead => simp [handleClientMessage] at h
  | decodeError => simp [handleClientMessage] at h
  | message pm => exact ⟨pm, rfl⟩

/-- C10 witness: the only error case is a decoded message — here the
unrecognized-tag message — whose connection input is indeed a message. -/
theorem connectionBoundary_witness :
    (handleClientMessage allOkStore (ConnInput.message pmBad)).result =
      Except.error "Unexpected CoreNodeEventType: bogus" ∧
    ∃ pm, ConnInput.message pmBad = ConnInput.message pm :=
  ⟨rfl, (connectionBoundary allOkStore (ConnInput.message pmBad)).2.2
      "Unexpected CoreNodeEventType: bogus" rfl⟩
